import Mathlib

/-!
Shallow embedding of `src/contracts/contracts/lending/LendingPool.sol`
(Solidity 0.8.24).  Machine integers (`uint256`) are modelled as `Nat`;
Solidity 0.8 checked arithmetic reverts on overflow/underflow, so the `Nat`
model captures the non-overflowing executions the specification describes
(every subtraction in the source is either guarded by an explicit `require`
or clamped before it runs).  Chainlink feeds are modelled as a per-call
environment mapping oracle addresses to `(answer, updatedAt, decimals)`
triples, and ERC20 debt-token custody of the pool as the `debtBalance`
field (the source reads `debtToken.balanceOf(address(this))` in its
liquidity guards).  Reverting calls are `Except.error`; the EVM transaction
wrapper (revert restores the pre-state) is `runTx`.  Role checks
(`onlyRole`) and the pause gate are external collaborators per the design
document and are not part of the engine state.
-/

namespace LendingPool

def WAD : Nat := 10 ^ 18

def PRICE_SCALE : Nat := 10 ^ 18

def MAX_ORACLE_DELAY : Nat := 3600

/-- `type(uint256).max`, the sentinel health factor for debt-free accounts. -/
def UINT256_MAX : Nat := 2 ^ 256 - 1

structure Account where
  collateral : Nat
  borrowBase : Nat
deriving Repr, DecidableEq

/-- One oracle's `latestRoundData` answer together with its `decimals()`. -/
structure Feed where
  answer : Int
  updatedAt : Nat
  decimals : Nat

/-- Per-call context: `block.timestamp` and the feed behind each oracle address. -/
structure Env where
  now : Nat
  feeds : Nat → Feed

structure Pool where
  collateralOracle : Nat
  debtOracle : Nat
  collateralTokenDecimals : Nat
  debtTokenDecimals : Nat
  collateralFactor : Nat
  liquidationThreshold : Nat
  liquidationBonus : Nat
  interestRatePerSecond : Nat
  totalCollateral : Nat
  totalBorrows : Nat
  borrowIndex : Nat
  lastAccrual : Nat
  debtBalance : Nat
  accounts : Nat → Account

inductive Err where
  | ZeroAmount
  | InsufficientCollateral
  | InsufficientLiquidity
  | NothingToRepay
  | SelfLiquidation
  | AccountHealthy
  | NoDebt
  | InvalidRiskParameters
  | OracleZero
  | OracleMissing
  | InvalidPrice
  | StalePrice
deriving Repr, DecidableEq

/-- `_getScaledPrice`: validate the feed and rescale the answer to 1e18 USD. -/
def getScaledPrice (env : Env) (oracle : Nat) : Except Err Nat :=
  if oracle = 0 then .error .OracleMissing
  else
    let f := env.feeds oracle
    if f.answer ≤ 0 then .error .InvalidPrice
    else if f.updatedAt = 0 ∨ env.now - f.updatedAt > MAX_ORACLE_DELAY then .error .StalePrice
    else .ok (f.answer.toNat * PRICE_SCALE / 10 ^ f.decimals)

/-- `_tokenValueUsd`. -/
def tokenValueUsd (env : Env) (amount decimals oracle : Nat) : Except Err Nat :=
  if amount = 0 then .ok 0
  else
    match getScaledPrice env oracle with
    | .error e => .error e
    | .ok price => .ok (amount * price / 10 ^ decimals)

/-- `_collateralValueUsd`. -/
def collateralValueUsd (env : Env) (p : Pool) (amount : Nat) : Except Err Nat :=
  tokenValueUsd env amount p.collateralTokenDecimals p.collateralOracle

/-- `_debtValueUsd`. -/
def debtValueUsd (env : Env) (p : Pool) (amount : Nat) : Except Err Nat :=
  tokenValueUsd env amount p.debtTokenDecimals p.debtOracle

/-- `_borrowBalanceWithIndex`. -/
def borrowBalanceWithIndex (a : Account) (index : Nat) : Nat :=
  if a.borrowBase = 0 then 0 else a.borrowBase * index / WAD

/-- `_borrowBalance`. -/
def borrowBalance (p : Pool) (a : Account) : Nat :=
  borrowBalanceWithIndex a p.borrowIndex

/-- `_isSolvent`. -/
def isSolvent (env : Env) (p : Pool) (a : Account) : Except Err Bool :=
  if borrowBalance p a = 0 then .ok true
  else
    match collateralValueUsd env p a.collateral with
    | .error e => .error e
    | .ok cv =>
      match debtValueUsd env p (borrowBalance p a) with
      | .error e => .error e
      | .ok dv => .ok (decide (dv ≤ cv * p.collateralFactor / WAD))

/-- `_healthFactor`. -/
def healthFactor (env : Env) (p : Pool) (collateralAmount borrowBase index threshold : Nat) :
    Except Err Nat :=
  if borrowBase = 0 then .ok UINT256_MAX
  else if borrowBase * index / WAD = 0 then .ok UINT256_MAX
  else
    match collateralValueUsd env p collateralAmount with
    | .error e => .error e
    | .ok cv =>
      match debtValueUsd env p (borrowBase * index / WAD) with
      | .error e => .error e
      | .ok dv => if dv = 0 then .ok UINT256_MAX else .ok (cv * threshold / dv)

/-- `_isHealthy`. -/
def isHealthy (env : Env) (p : Pool) (a : Account) : Except Err Bool :=
  match healthFactor env p a.collateral a.borrowBase p.borrowIndex p.liquidationThreshold with
  | .error e => .error e
  | .ok h => .ok (decide (WAD ≤ h))

/-- `_accrueInterest` (the state transition; `block.timestamp` is `now`). -/
def accrueInterest (now : Nat) (p : Pool) : Pool :=
  if now = p.lastAccrual ∨ p.totalBorrows = 0 ∨ p.interestRatePerSecond = 0 then
    { p with lastAccrual := now }
  else
    let delta := now - p.lastAccrual
    let simpleInterestFactor := p.interestRatePerSecond * delta
    let interest := p.totalBorrows * simpleInterestFactor / WAD
    { p with
      totalBorrows := p.totalBorrows + interest
      borrowIndex := p.borrowIndex + p.borrowIndex * simpleInterestFactor / WAD
      lastAccrual := now }

/-- Writing one slot of the `accounts` mapping. -/
def setAccount (p : Pool) (addr : Nat) (a : Account) : Pool :=
  { p with accounts := fun x => if x = addr then a else p.accounts x }

/-- `_increaseBorrow` (account slot `caller`). -/
def increaseBorrow (p : Pool) (caller amount : Nat) : Pool :=
  let acct := p.accounts caller
  let newBalance := borrowBalance p acct + amount
  setAccount { p with totalBorrows := p.totalBorrows + amount } caller
    { acct with borrowBase := newBalance * WAD / p.borrowIndex }

/-- `_decreaseBorrow` (account slot `caller`); returns the amount applied. -/
def decreaseBorrow (p : Pool) (caller amount : Nat) : Pool × Nat :=
  let acct := p.accounts caller
  let current := borrowBalance p acct
  let amt := if amount > current then current else amount
  if amt = 0 then (p, 0)
  else
    let newBalance := current - amt
    (setAccount { p with totalBorrows := p.totalBorrows - amt } caller
      { acct with borrowBase := if newBalance = 0 then 0 else newBalance * WAD / p.borrowIndex },
     amt)

/-- `depositCollateral`.  The collateral-token `safeTransferFrom` is the
external transfer primitive and is not tracked in engine state. -/
def depositCollateral (env : Env) (caller amount : Nat) (p : Pool) : Except Err (Pool × Nat) :=
  if amount = 0 then .error .ZeroAmount
  else
    let p1 := accrueInterest env.now p
    let acct := p1.accounts caller
    .ok (setAccount { p1 with totalCollateral := p1.totalCollateral + amount } caller
          { acct with collateral := acct.collateral + amount }, 0)

/-- `withdrawCollateral`. -/
def withdrawCollateral (env : Env) (caller amount : Nat) (p : Pool) : Except Err (Pool × Nat) :=
  if amount = 0 then .error .ZeroAmount
  else
    let p1 := accrueInterest env.now p
    let acct := p1.accounts caller
    if acct.collateral < amount then .error .InsufficientCollateral
    else
      let acct2 : Account := { acct with collateral := acct.collateral - amount }
      let p2 := setAccount { p1 with totalCollateral := p1.totalCollateral - amount } caller acct2
      match isSolvent env p2 acct2 with
      | .error e => .error e
      | .ok false => .error .InsufficientCollateral
      | .ok true => .ok (p2, 0)

/-- `borrow`.  The final `safeTransfer` pays the borrower out of the pool's
debt-token balance. -/
def borrow (env : Env) (caller amount : Nat) (p : Pool) : Except Err (Pool × Nat) :=
  if amount = 0 then .error .ZeroAmount
  else
    let p1 := accrueInterest env.now p
    if amount > p1.debtBalance then .error .InsufficientLiquidity
    else
      let p2 := increaseBorrow p1 caller amount
      match isSolvent env p2 (p2.accounts caller) with
      | .error e => .error e
      | .ok false => .error .InsufficientCollateral
      | .ok true => .ok ({ p2 with debtBalance := p2.debtBalance - amount }, 0)

/-- `repay`; the returned `Nat` is `actualRepay`. -/
def repay (env : Env) (caller amount : Nat) (p : Pool) : Except Err (Pool × Nat) :=
  if amount = 0 then .error .ZeroAmount
  else
    let p1 := accrueInterest env.now p
    let res := decreaseBorrow p1 caller amount
    if res.2 = 0 then .error .NothingToRepay
    else .ok ({ res.1 with debtBalance := res.1.debtBalance + res.2 }, res.2)

/-- `liquidate`.  The seized collateral is paid to the liquidator by the
collateral-token transfer primitive; the debt repayment lands in the pool's
debt-token balance. -/
def liquidate (env : Env) (liquidator borrower amount : Nat) (p : Pool) :
    Except Err (Pool × Nat) :=
  if borrower = liquidator then .error .SelfLiquidation
  else if amount = 0 then .error .ZeroAmount
  else
    let p1 := accrueInterest env.now p
    let acct := p1.accounts borrower
    match isHealthy env p1 acct with
    | .error e => .error e
    | .ok true => .error .AccountHealthy
    | .ok false =>
      let debt := borrowBalance p1 acct
      if debt = 0 then .error .NoDebt
      else
        let actualRepay := if amount > debt then debt else amount
        let p1b := { p1 with debtBalance := p1.debtBalance + actualRepay }
        let p2 := (decreaseBorrow p1b borrower actualRepay).1
        let acct2 := p2.accounts borrower
        let seize0 := actualRepay * p1.liquidationBonus / WAD
        let seize := if seize0 > acct2.collateral then acct2.collateral else seize0
        .ok (setAccount { p2 with totalCollateral := p2.totalCollateral - seize } borrower
              { acct2 with collateral := acct2.collateral - seize }, 0)

/-- `provideLiquidity` (manager-gated upstream; the transfer credits the
pool's debt-token balance). -/
def provideLiquidity (env : Env) (caller amount : Nat) (p : Pool) : Except Err (Pool × Nat) :=
  if amount = 0 then .error .ZeroAmount
  else .ok ({ p with debtBalance := p.debtBalance + amount }, 0)

/-- `withdrawLiquidity`. -/
def withdrawLiquidity (env : Env) (caller amount : Nat) (p : Pool) : Except Err (Pool × Nat) :=
  if amount = 0 then .error .ZeroAmount
  else if amount > p.debtBalance then .error .InsufficientLiquidity
  else .ok ({ p with debtBalance := p.debtBalance - amount }, 0)

/-- `_validateRiskParams` as a Boolean. -/
def validRiskParams (cf lt lb : Nat) : Bool :=
  decide (0 < cf) && decide (cf ≤ WAD) && decide (cf ≤ lt) && decide (lt ≤ WAD) &&
    decide (WAD ≤ lb)

/-- `setRiskParameters`. -/
def setRiskParameters (env : Env) (cf lt lb : Nat) (p : Pool) : Except Err (Pool × Nat) :=
  if validRiskParams cf lt lb then
    .ok ({ p with collateralFactor := cf, liquidationThreshold := lt, liquidationBonus := lb }, 0)
  else .error .InvalidRiskParameters

/-- `setInterestRate`. -/
def setInterestRate (env : Env) (rate : Nat) (p : Pool) : Except Err (Pool × Nat) :=
  let p1 := accrueInterest env.now p
  .ok ({ p1 with interestRatePerSecond := rate }, 0)

/-- `setOracles`. -/
def setOracles (env : Env) (co dOr : Nat) (p : Pool) : Except Err (Pool × Nat) :=
  if co = 0 ∨ dOr = 0 then .error .OracleZero
  else .ok ({ p with collateralOracle := co, debtOracle := dOr }, 0)

/-- The external `accrueInterest()` entry point. -/
def accrueInterestExt (env : Env) (p : Pool) : Except Err (Pool × Nat) :=
  .ok (accrueInterest env.now p, 0)

/-- One public call, with its arguments. -/
inductive Op where
  | deposit (caller amount : Nat)
  | withdraw (caller amount : Nat)
  | borrowOp (caller amount : Nat)
  | repayOp (caller amount : Nat)
  | liquidateOp (liquidator borrower amount : Nat)
  | provideLiq (caller amount : Nat)
  | withdrawLiq (caller amount : Nat)
  | setRisk (cf lt lb : Nat)
  | setRate (rate : Nat)
  | setOrc (co dOr : Nat)
  | accrueOp
  | readOnly

def applyOp (env : Env) (o : Op) (p : Pool) : Except Err (Pool × Nat) :=
  match o with
  | .deposit c a => depositCollateral env c a p
  | .withdraw c a => withdrawCollateral env c a p
  | .borrowOp c a => borrow env c a p
  | .repayOp c a => repay env c a p
  | .liquidateOp l b a => liquidate env l b a p
  | .provideLiq c a => provideLiquidity env c a p
  | .withdrawLiq c a => withdrawLiquidity env c a p
  | .setRisk cf lt lb => setRiskParameters env cf lt lb p
  | .setRate r => setInterestRate env r p
  | .setOrc co dOr => setOracles env co dOr p
  | .accrueOp => accrueInterestExt env p
  | .readOnly => .ok (p, 0)

/-- EVM transaction semantics: a revert restores the pre-state. -/
def runTx (env : Env) (o : Op) (p : Pool) : Pool × Option Err :=
  match applyOp env o p with
  | .ok (p', _) => (p', none)
  | .error e => (p, some e)

def runSeq (p : Pool) : List (Env × Op) → Pool
  | [] => p
  | eo :: rest => runSeq (runTx eo.1 eo.2 p).1 rest

/-- The caller-supplied clock never moves backwards along the sequence. -/
def ClockOk : Nat → List (Env × Op) → Prop
  | _, [] => True
  | t, eo :: rest => t ≤ eo.1.now ∧ ClockOk eo.1.now rest

/-- The state trace of a sequence of calls, starting state included. -/
def trace (p : Pool) : List (Env × Op) → List Pool
  | [] => [p]
  | eo :: rest => p :: trace (runTx eo.1 eo.2 p).1 rest

/-- The monotone quantities of claim C3. -/
def stepRel (a b : Pool) : Prop :=
  a.borrowIndex ≤ b.borrowIndex ∧ a.lastAccrual ≤ b.lastAccrual

/-- The pool state produced by the constructor: no collateral, no borrows,
index `WAD`, deployment timestamp `t0`, and no debt-token balance yet. -/
def initPool (co dOr cd dd cf lt lb rate t0 : Nat) : Pool :=
  { collateralOracle := co
    debtOracle := dOr
    collateralTokenDecimals := cd
    debtTokenDecimals := dd
    collateralFactor := cf
    liquidationThreshold := lt
    liquidationBonus := lb
    interestRatePerSecond := rate
    totalCollateral := 0
    totalBorrows := 0
    borrowIndex := WAD
    lastAccrual := t0
    debtBalance := 0
    accounts := fun _ => ⟨0, 0⟩ }

/-- Collateral held by the accounts listed in `l`. -/
def collSum (p : Pool) (l : List Nat) : Nat :=
  (l.map (fun a => (p.accounts a).collateral)).sum

/-- `totalCollateral` matches the ledger: some duplicate-free list of
addresses carries all nonzero accounts and its collateral sums to
`totalCollateral`. -/
def Conserved (p : Pool) : Prop :=
  ∃ l : List Nat, l.Nodup ∧ (∀ a, a ∉ l → p.accounts a = ⟨0, 0⟩) ∧
    p.totalCollateral = collSum p l

/-- Stated by the claim about liquidation: the repayment actually applied,
`min(repayAmount, outstanding debt after accrual)`. -/
def claimedRepay (env : Env) (b amt : Nat) (p : Pool) : Nat :=
  min amt (borrowBalance (accrueInterest env.now p) ((accrueInterest env.now p).accounts b))

/-- Stated by the claim about liquidation: the collateral seized,
`min(actualRepay * liquidationBonus / WAD, collateral before seizure)`. -/
def claimedSeize (env : Env) (b amt : Nat) (p : Pool) : Nat :=
  min (claimedRepay env b amt p * (accrueInterest env.now p).liquidationBonus / WAD)
    (((accrueInterest env.now p).accounts b).collateral)

/-! Concrete fixtures used by witnesses and counterexamples.  Oracle
address 1 is the collateral feed and address 2 the debt feed; both answer
1 USD with 0 feed decimals, fresh at the respective call time. -/

def env0 : Env := { now := 1000, feeds := fun _ => ⟨1, 1000, 0⟩ }

def env2000 : Env := { now := 2000, feeds := fun _ => ⟨1, 2000, 0⟩ }

/-- A liquid pool whose account 1 holds 100 collateral and no debt. -/
def pool1 : Pool :=
  { collateralOracle := 1
    debtOracle := 2
    collateralTokenDecimals := 0
    debtTokenDecimals := 0
    collateralFactor := 5 * 10 ^ 17
    liquidationThreshold := 8 * 10 ^ 17
    liquidationBonus := 11 * 10 ^ 17
    interestRatePerSecond := 0
    totalCollateral := 100
    totalBorrows := 0
    borrowIndex := WAD
    lastAccrual := 1000
    debtBalance := 1000
    accounts := fun a => if a = 1 then ⟨100, 0⟩ else ⟨0, 0⟩ }

/-- A pool whose account 1 owes 40 debt against 100 collateral. -/
def pool2 : Pool :=
  { pool1 with
    totalBorrows := 40
    debtBalance := 0
    accounts := fun a => if a = 1 then ⟨100, 40⟩ else ⟨0, 0⟩ }

/-- A pool whose account 2 is deeply under water: 10 collateral backing a
debt of 100 (both assets worth 1 USD). -/
def poolLiq : Pool :=
  { pool1 with
    liquidationBonus := WAD
    totalCollateral := 10
    totalBorrows := 100
    debtBalance := 0
    accounts := fun a => if a = 2 then ⟨10, 100⟩ else ⟨0, 0⟩ }

/-- A pool whose borrow index has grown to twice `WAD`. -/
def poolHi : Pool :=
  { pool1 with
    borrowIndex := 2 * WAD
    totalCollateral := 0
    accounts := fun _ => ⟨0, 0⟩ }

/-- The result of a successful demonstration borrow (account 1 takes 10). -/
def borrowDemo : Pool × Nat := (borrow env0 1 10 pool1).toOption.getD (pool1, 0)

/-- The result of a successful over-repay (account 1 repays 100 against 40 owed). -/
def repayDemo : Pool × Nat := (repay env0 1 100 pool2).toOption.getD (pool2, 0)

/-- The result of a successful demonstration liquidation. -/
def liqDemo : Pool × Nat := (liquidate env0 1 2 30 poolLiq).toOption.getD (poolLiq, 0)

/-- The result of a successful `setRiskParameters` at clock 2000. -/
def setRiskDemo : Pool × Nat :=
  (setRiskParameters env2000 (5 * 10 ^ 17) (8 * 10 ^ 17) (12 * 10 ^ 17) pool1).toOption.getD
    (pool1, 0)

/-- The result of a successful deposit at clock 2000. -/
def depositDemo : Pool × Nat := (depositCollateral env2000 1 5 pool1).toOption.getD (pool1, 0)

/-- A short demonstration call sequence with a non-decreasing clock. -/
def demoOps : List (Env × Op) := [(env0, Op.accrueOp), (env2000, Op.deposit 1 5)]

example : (borrow env0 1 10 pool1).toOption.map (fun v => (v.1.accounts 1).borrowBase)
    = some 10 := by decide
example : (repay env0 1 100 pool2).toOption.map (fun v => v.2) = some 40 := by decide
example : (liquidate env0 1 2 30 poolLiq).toOption.map
    (fun v => ((v.1.accounts 2).collateral, v.1.totalCollateral, v.1.debtBalance))
    = some (0, 0, 30) := by decide
example : liquidate env0 1 3 5 pool1 = .error .AccountHealthy := rfl
example : depositCollateral env0 1 0 pool1 = .error .ZeroAmount := rfl

/-! Helper lemmas about `accrueInterest` and the internal ledger moves. -/

lemma accrueInterest_lastAccrual (now : Nat) (p : Pool) :
    (accrueInterest now p).lastAccrual = now := by
  unfold accrueInterest; split <;> rfl

lemma accrueInterest_index_le (now : Nat) (p : Pool) :
    p.borrowIndex ≤ (accrueInterest now p).borrowIndex := by
  unfold accrueInterest; split
  · exact Nat.le_refl _
  · exact Nat.le_add_right _ _

lemma accrueInterest_accounts (now : Nat) (p : Pool) :
    (accrueInterest now p).accounts = p.accounts := by
  unfold accrueInterest; split <;> rfl

lemma accrueInterest_totalCollateral (now : Nat) (p : Pool) :
    (accrueInterest now p).totalCollateral = p.totalCollateral := by
  unfold accrueInterest; split <;> rfl

lemma setAccount_accounts (p : Pool) (addr : Nat) (a : Account) :
    (setAccount p addr a).accounts = fun x => if x = addr then a else p.accounts x := rfl

lemma decreaseBorrow_fst_borrowIndex (p : Pool) (c a : Nat) :
    (decreaseBorrow p c a).1.borrowIndex = p.borrowIndex := by
  simp only [decreaseBorrow]
  split <;> split <;> rfl

lemma decreaseBorrow_fst_lastAccrual (p : Pool) (c a : Nat) :
    (decreaseBorrow p c a).1.lastAccrual = p.lastAccrual := by
  simp only [decreaseBorrow]
  split <;> split <;> rfl

lemma decreaseBorrow_fst_totalCollateral (p : Pool) (c a : Nat) :
    (decreaseBorrow p c a).1.totalCollateral = p.totalCollateral := by
  simp only [decreaseBorrow]
  split <;> split <;> rfl

/-! List-sum bookkeeping used for the collateral-conservation invariant. -/

lemma sum_map_update (l : List Nat) (f g : Nat → Nat) (addr : Nat)
    (hnd : l.Nodup) (hmem : addr ∈ l)
    (hsame : ∀ x ∈ l, x ≠ addr → g x = f x) :
    (l.map g).sum + f addr = (l.map f).sum + g addr := by
  induction l with
  | nil => cases hmem
  | cons hd tl ih =>
    rcases List.mem_cons.mp hmem with heq | hmem'
    · subst heq
      have hnotin : addr ∉ tl := (List.nodup_cons.mp hnd).1
      have htl : ∀ x ∈ tl, g x = f x := by
        intro x hx
        refine hsame x (List.mem_cons_of_mem _ hx) ?_
        intro hxa
        exact hnotin (hxa ▸ hx)
      have hmap : tl.map g = tl.map f := List.map_congr_left htl
      simp only [List.map_cons, List.sum_cons, hmap]
      omega
    · have hne : hd ≠ addr := by
        intro h
        exact (List.nodup_cons.mp hnd).1 (h ▸ hmem')
      have hghd : g hd = f hd := hsame hd (List.mem_cons_self _ _) hne
      have hrec := ih (List.nodup_cons.mp hnd).2 hmem'
        (fun x hx hxa => hsame x (List.mem_cons_of_mem _ hx) hxa)
      simp only [List.map_cons, List.sum_cons, hghd]
      omega

lemma collSum_congr_on (p p' : Pool) (l : List Nat)
    (h : ∀ a ∈ l, (p'.accounts a).collateral = (p.accounts a).collateral) :
    collSum p' l = collSum p l := by
  unfold collSum
  exact congrArg List.sum (List.map_congr_left h)

lemma conserved_congr (p p' : Pool) (hacc : p'.accounts = p.accounts)
    (htot : p'.totalCollateral = p.totalCollateral) (hp : Conserved p) : Conserved p' := by
  obtain ⟨l, hnd, hout, hsum⟩ := hp
  refine ⟨l, hnd, ?_, ?_⟩
  · intro a ha
    rw [hacc]
    exact hout a ha
  · rw [htot, collSum_congr_on p p' l (fun a _ => by rw [hacc])]
    exact hsum

lemma conserved_update_add (p p' : Pool) (addr : Nat) (acct : Account) (d : Nat)
    (hacc : p'.accounts = fun x => if x = addr then acct else p.accounts x)
    (hcoll : acct.collateral = (p.accounts addr).collateral + d)
    (htot : p'.totalCollateral = p.totalCollateral + d)
    (hp : Conserved p) : Conserved p' := by
  obtain ⟨l, hnd, hout, hsum⟩ := hp
  have haddr : (p'.accounts addr).collateral = acct.collateral := by rw [hacc]; simp
  have hother : ∀ x, x ≠ addr → (p'.accounts x).collateral = (p.accounts x).collateral := by
    intro x hx
    rw [hacc]
    simp [hx]
  by_cases hmem : addr ∈ l
  · refine ⟨l, hnd, ?_, ?_⟩
    · intro a ha
      have hne : a ≠ addr := fun h => ha (h ▸ hmem)
      rw [hacc]
      simp only [hne, if_false]
      exact hout a ha
    · have key := sum_map_update l (fun a => (p.accounts a).collateral)
        (fun a => (p'.accounts a).collateral) addr hnd hmem
        (fun x _ hx => hother x hx)
      have key' : collSum p' l + (p.accounts addr).collateral
          = collSum p l + acct.collateral := by
        unfold collSum
        rw [← haddr]
        exact key
      omega
  · refine ⟨addr :: l, List.nodup_cons.mpr ⟨hmem, hnd⟩, ?_, ?_⟩
    · intro a ha
      have h1 : a ≠ addr := fun h => ha (h ▸ List.mem_cons_self _ _)
      have h2 : a ∉ l := fun h => ha (List.mem_cons_of_mem _ h)
      rw [hacc]
      simp only [h1, if_false]
      exact hout a h2
    · have hold : p.accounts addr = ⟨0, 0⟩ := hout addr hmem
      have hsame : collSum p' l = collSum p l := by
        refine collSum_congr_on p p' l ?_
        intro a ha
        exact hother a (fun h => hmem (h ▸ ha))
      have hsum' : collSum p' (addr :: l) = acct.collateral + collSum p l := by
        unfold collSum
        simp only [List.map_cons, List.sum_cons]
        rw [haddr]
        have := hsame
        unfold collSum at this
        omega
      rw [hsum', hcoll, hold]
      simp only []
      omega

lemma conserved_update_sub (p p' : Pool) (addr : Nat) (acct : Account) (d : Nat)
    (hacc : p'.accounts = fun x => if x = addr then acct else p.accounts x)
    (hd : d ≤ (p.accounts addr).collateral)
    (hcoll : acct.collateral = (p.accounts addr).collateral - d)
    (htot : p'.totalCollateral = p.totalCollateral - d)
    (hp : Conserved p) : Conserved p' := by
  obtain ⟨l, hnd, hout, hsum⟩ := hp
  have haddr : (p'.accounts addr).collateral = acct.collateral := by rw [hacc]; simp
  have hother : ∀ x, x ≠ addr → (p'.accounts x).collateral = (p.accounts x).collateral := by
    intro x hx
    rw [hacc]
    simp [hx]
  by_cases hmem : addr ∈ l
  · have hle : (p.accounts addr).collateral ≤ collSum p l := by
      unfold collSum
      exact List.single_le_sum (fun x _ => Nat.zero_le x) _
        (List.mem_map_of_mem _ hmem)
    refine ⟨l, hnd, ?_, ?_⟩
    · intro a ha
      have hne : a ≠ addr := fun h => ha (h ▸ hmem)
      rw [hacc]
      simp only [hne, if_false]
      exact hout a ha
    · have key := sum_map_update l (fun a => (p.accounts a).collateral)
        (fun a => (p'.accounts a).collateral) addr hnd hmem
        (fun x _ hx => hother x hx)
      have key' : collSum p' l + (p.accounts addr).collateral
          = collSum p l + acct.collateral := by
        unfold collSum
        rw [← haddr]
        exact key
      omega
  · have hold : p.accounts addr = ⟨0, 0⟩ := hout addr hmem
    have hd0 : d = 0 := by
      have : (p.accounts addr).collateral = 0 := by rw [hold]
      omega
    refine ⟨addr :: l, List.nodup_cons.mpr ⟨hmem, hnd⟩, ?_, ?_⟩
    · intro a ha
      have h1 : a ≠ addr := fun h => ha (h ▸ List.mem_cons_self _ _)
      have h2 : a ∉ l := fun h => ha (List.mem_cons_of_mem _ h)
      rw [hacc]
      simp only [h1, if_false]
      exact hout a h2
    · have hsame : collSum p' l = collSum p l := by
        refine collSum_congr_on p p' l ?_
        intro a ha
        exact hother a (fun h => hmem (h ▸ ha))
      have hsum' : collSum p' (addr :: l) = acct.collateral + collSum p l := by
        unfold collSum
        simp only [List.map_cons, List.sum_cons]
        rw [haddr]
        unfold collSum at hsame
        omega
      rw [hsum', hcoll, hold]
      simp only []
      omega

/-! Success-shape lemmas: ledger-mutating entry points run `_accrueInterest`
first and never touch `borrowIndex`/`lastAccrual` afterwards; the liquidity
and parameter setters other than `setInterestRate` skip accrual entirely. -/

lemma depositCollateral_ok_fields (env : Env) (c a : Nat) (p p' : Pool) (r : Nat)
    (h : depositCollateral env c a p = .ok (p', r)) :
    p'.borrowIndex = (accrueInterest env.now p).borrowIndex ∧ p'.lastAccrual = env.now := by
  simp only [depositCollateral] at h
  split at h
  · exact Except.noConfusion h
  · simp only [Except.ok.injEq, Prod.mk.injEq] at h
    obtain ⟨h1, -⟩ := h
    subst h1
    exact ⟨rfl, accrueInterest_lastAccrual env.now p⟩

lemma withdrawCollateral_ok_fields (env : Env) (c a : Nat) (p p' : Pool) (r : Nat)
    (h : withdrawCollateral env c a p = .ok (p', r)) :
    p'.borrowIndex = (accrueInterest env.now p).borrowIndex ∧ p'.lastAccrual = env.now := by
  simp only [withdrawCollateral] at h
  split at h
  · exact Except.noConfusion h
  · split at h
    · exact Except.noConfusion h
    · split at h
      · exact Except.noConfusion h
      · exact Except.noConfusion h
      · simp only [Except.ok.injEq, Prod.mk.injEq] at h
        obtain ⟨h1, -⟩ := h
        subst h1
        exact ⟨rfl, accrueInterest_lastAccrual env.now p⟩

lemma borrow_ok_fields (env : Env) (c a : Nat) (p p' : Pool) (r : Nat)
    (h : borrow env c a p = .ok (p', r)) :
    p'.borrowIndex = (accrueInterest env.now p).borrowIndex ∧ p'.lastAccrual = env.now := by
  simp only [borrow] at h
  split at h
  · exact Except.noConfusion h
  · split at h
    · exact Except.noConfusion h
    · split at h
      · exact Except.noConfusion h
      · exact Except.noConfusion h
      · simp only [Except.ok.injEq, Prod.mk.injEq] at h
        obtain ⟨h1, -⟩ := h
        subst h1
        exact ⟨rfl, accrueInterest_lastAccrual env.now p⟩

lemma repay_ok_fields (env : Env) (c a : Nat) (p p' : Pool) (r : Nat)
    (h : repay env c a p = .ok (p', r)) :
    p'.borrowIndex = (accrueInterest env.now p).borrowIndex ∧ p'.lastAccrual = env.now := by
  simp only [repay] at h
  split at h
  · exact Except.noConfusion h
  · split at h
    · exact Except.noConfusion h
    · simp only [Except.ok.injEq, Prod.mk.injEq] at h
      obtain ⟨h1, -⟩ := h
      subst h1
      refine ⟨?_, ?_⟩
      · exact decreaseBorrow_fst_borrowIndex _ _ _
      · exact (decreaseBorrow_fst_lastAccrual _ _ _).trans (accrueInterest_lastAccrual env.now p)

lemma liquidate_ok_fields (env : Env) (l b a : Nat) (p p' : Pool) (r : Nat)
    (h : liquidate env l b a p = .ok (p', r)) :
    p'.borrowIndex = (accrueInterest env.now p).borrowIndex ∧ p'.lastAccrual = env.now := by
  simp only [liquidate] at h
  split at h
  · exact Except.noConfusion h
  · split at h
    · exact Except.noConfusion h
    · split at h
      · exact Except.noConfusion h
      · exact Except.noConfusion h
      · split at h
        · exact Except.noConfusion h
        · simp only [Except.ok.injEq, Prod.mk.injEq] at h
          obtain ⟨h1, -⟩ := h
          subst h1
          refine ⟨?_, ?_⟩
          · exact decreaseBorrow_fst_borrowIndex _ _ _
          · exact (decreaseBorrow_fst_lastAccrual _ _ _).trans
              (accrueInterest_lastAccrual env.now p)

lemma setInterestRate_ok_fields (env : Env) (rate : Nat) (p p' : Pool) (r : Nat)
    (h : setInterestRate env rate p = .ok (p', r)) :
    p'.borrowIndex = (accrueInterest env.now p).borrowIndex ∧ p'.lastAccrual = env.now := by
  simp only [setInterestRate, Except.ok.injEq, Prod.mk.injEq] at h
  obtain ⟨h1, -⟩ := h
  subst h1
  exact ⟨rfl, accrueInterest_lastAccrual env.now p⟩

lemma accrueInterestExt_ok_fields (env : Env) (p p' : Pool) (r : Nat)
    (h : accrueInterestExt env p = .ok (p', r)) :
    p'.borrowIndex = (accrueInterest env.now p).borrowIndex ∧ p'.lastAccrual = env.now := by
  simp only [accrueInterestExt, Except.ok.injEq, Prod.mk.injEq] at h
  obtain ⟨h1, -⟩ := h
  subst h1
  exact ⟨rfl, accrueInterest_lastAccrual env.now p⟩

lemma provideLiquidity_ok_fields (env : Env) (c a : Nat) (p p' : Pool) (r : Nat)
    (h : provideLiquidity env c a p = .ok (p', r)) :
    p'.borrowIndex = p.borrowIndex ∧ p'.lastAccrual = p.lastAccrual := by
  simp only [provideLiquidity] at h
  split at h
  · exact Except.noConfusion h
  · simp only [Except.ok.injEq, Prod.mk.injEq] at h
    obtain ⟨h1, -⟩ := h
    subst h1
    exact ⟨rfl, rfl⟩

lemma withdrawLiquidity_ok_fields (env : Env) (c a : Nat) (p p' : Pool) (r : Nat)
    (h : withdrawLiquidity env c a p = .ok (p', r)) :
    p'.borrowIndex = p.borrowIndex ∧ p'.lastAccrual = p.lastAccrual := by
  simp only [withdrawLiquidity] at h
  split at h
  · exact Except.noConfusion h
  · split at h
    · exact Except.noConfusion h
    · simp only [Except.ok.injEq, Prod.mk.injEq] at h
      obtain ⟨h1, -⟩ := h
      subst h1
      exact ⟨rfl, rfl⟩

lemma setRiskParameters_ok_fields (env : Env) (cf lt lb : Nat) (p p' : Pool) (r : Nat)
    (h : setRiskParameters env cf lt lb p = .ok (p', r)) :
    p'.borrowIndex = p.borrowIndex ∧ p'.lastAccrual = p.lastAccrual := by
  simp only [setRiskParameters] at h
  split at h
  · simp only [Except.ok.injEq, Prod.mk.injEq] at h
    obtain ⟨h1, -⟩ := h
    subst h1
    exact ⟨rfl, rfl⟩
  · exact Except.noConfusion h

lemma setOracles_ok_fields (env : Env) (co dOr : Nat) (p p' : Pool) (r : Nat)
    (h : setOracles env co dOr p = .ok (p', r)) :
    p'.borrowIndex = p.borrowIndex ∧ p'.lastAccrual = p.lastAccrual := by
  simp only [setOracles] at h
  split at h
  · exact Except.noConfusion h
  · simp only [Except.ok.injEq, Prod.mk.injEq] at h
    obtain ⟨h1, -⟩ := h
    subst h1
    exact ⟨rfl, rfl⟩

lemma clockOk_of_le (t t' : Nat) (l : List (Env × Op)) (hle : t' ≤ t) (h : ClockOk t l) :
    ClockOk t' l := by
  cases l with
  | nil => trivial
  | cons eo rest => exact ⟨le_trans hle h.1, h.2⟩

lemma trace_head_cons (p : Pool) (l : List (Env × Op)) : ∃ t, trace p l = p :: t := by
  cases l with
  | nil => exact ⟨[], rfl⟩
  | cons eo rest => exact ⟨trace (runTx eo.1 eo.2 p).1 rest, rfl⟩

/-- One transaction neither decreases `borrowIndex` nor `lastAccrual`, and
never pushes `lastAccrual` past the call's clock. -/
lemma runTx_mono (env : Env) (o : Op) (p : Pool) (h : p.lastAccrual ≤ env.now) :
    stepRel p (runTx env o p).1 ∧ (runTx env o p).1.lastAccrual ≤ env.now := by
  rcases hres : applyOp env o p with e | ⟨p', r⟩
  · simp only [runTx, hres]
    exact ⟨⟨Nat.le_refl _, Nat.le_refl _⟩, h⟩
  · simp only [runTx, hres]
    have hfields : (p'.borrowIndex = (accrueInterest env.now p).borrowIndex ∧
        p'.lastAccrual = env.now) ∨
        (p'.borrowIndex = p.borrowIndex ∧ p'.lastAccrual = p.lastAccrual) := by
      cases o with
      | deposit c a => exact Or.inl (depositCollateral_ok_fields env c a p p' r hres)
      | withdraw c a => exact Or.inl (withdrawCollateral_ok_fields env c a p p' r hres)
      | borrowOp c a => exact Or.inl (borrow_ok_fields env c a p p' r hres)
      | repayOp c a => exact Or.inl (repay_ok_fields env c a p p' r hres)
      | liquidateOp l b a => exact Or.inl (liquidate_ok_fields env l b a p p' r hres)
      | provideLiq c a => exact Or.inr (provideLiquidity_ok_fields env c a p p' r hres)
      | withdrawLiq c a => exact Or.inr (withdrawLiquidity_ok_fields env c a p p' r hres)
      | setRisk cf lt lb => exact Or.inr (setRiskParameters_ok_fields env cf lt lb p p' r hres)
      | setRate rr => exact Or.inl (setInterestRate_ok_fields env rr p p' r hres)
      | setOrc co dOr => exact Or.inr (setOracles_ok_fields env co dOr p p' r hres)
      | accrueOp => exact Or.inl (accrueInterestExt_ok_fields env p p' r hres)
      | readOnly =>
        simp only [applyOp, Except.ok.injEq, Prod.mk.injEq] at hres
        exact Or.inr ⟨by rw [← hres.1], by rw [← hres.1]⟩
    rcases hfields with ⟨h1, h2⟩ | ⟨h1, h2⟩
    · refine ⟨⟨?_, ?_⟩, ?_⟩
      · rw [h1]; exact accrueInterest_index_le env.now p
      · rw [h2]; exact h
      · rw [h2]
    · refine ⟨⟨le_of_eq h1.symm, le_of_eq h2.symm⟩, ?_⟩
      rw [h2]; exact h

/-- C3: along any call sequence whose caller-supplied clock never moves
backwards, `borrowIndex` and `lastAccrual` are non-decreasing after every
single step (successful or reverted, mutating or read-only). -/
theorem borrowIndex_lastAccrual_monotone (l : List (Env × Op)) (p : Pool)
    (h : ClockOk p.lastAccrual l) : List.Chain' stepRel (trace p l) := by
  induction l generalizing p with
  | nil => simp [trace]
  | cons eo rest ih =>
    obtain ⟨h1, h2⟩ := h
    have hstep := runTx_mono eo.1 eo.2 p h1
    obtain ⟨t, ht⟩ := trace_head_cons (runTx eo.1 eo.2 p).1 rest
    show List.Chain' stepRel (p :: trace (runTx eo.1 eo.2 p).1 rest)
    rw [ht]
    refine List.chain'_cons.mpr ⟨hstep.1, ?_⟩
    rw [← ht]
    exact ih (runTx eo.1 eo.2 p).1 (clockOk_of_le eo.1.now _ rest hstep.2 h2)

theorem borrowIndex_lastAccrual_monotone_witness :
    ClockOk pool2.lastAccrual demoOps ∧ List.Chain' stepRel (trace pool2 demoOps) := by
  have hc : ClockOk pool2.lastAccrual demoOps := ⟨by decide, by decide, trivial⟩
  exact ⟨hc, borrowIndex_lastAccrual_monotone demoOps pool2 hc⟩

/-- C1: revert semantics — whenever a public call ends in an error, the
post-transaction Pool and every account equal the pre-state exactly. -/
theorem tx_atomicity (env : Env) (o : Op) (p : Pool) (e : Err)
    (h : (runTx env o p).2 = some e) : (runTx env o p).1 = p := by
  cases hres : applyOp env o p with
  | error e2 => simp [runTx, hres]
  | ok v => simp [runTx, hres] at h

theorem tx_atomicity_witness :
    (runTx env0 (Op.deposit 1 0) pool1).2 = some Err.ZeroAmount ∧
    (runTx env0 (Op.deposit 1 0) pool1).1 = pool1 :=
  ⟨rfl, tx_atomicity env0 (Op.deposit 1 0) pool1 Err.ZeroAmount rfl⟩

/-- C2: `_accrueInterest(now)` always moves `lastAccrual` to `now`; with no
elapsed time, no borrows or a zero rate it changes nothing else, and
otherwise it grows `totalBorrows` and `borrowIndex` by the floor-divided
simple-interest factor, leaving every other field unchanged. -/
theorem accrue_transition (p : Pool) (now : Nat) (h : p.lastAccrual ≤ now) :
    (accrueInterest now p).lastAccrual = now ∧
    (if now = p.lastAccrual ∨ p.totalBorrows = 0 ∨ p.interestRatePerSecond = 0 then
      accrueInterest now p = { p with lastAccrual := now }
    else
      accrueInterest now p = { p with
        totalBorrows := p.totalBorrows +
          p.totalBorrows * (p.interestRatePerSecond * (now - p.lastAccrual)) / WAD
        borrowIndex := p.borrowIndex +
          p.borrowIndex * (p.interestRatePerSecond * (now - p.lastAccrual)) / WAD
        lastAccrual := now }) := by
  refine ⟨accrueInterest_lastAccrual now p, ?_⟩
  split
  · rename_i hc
    unfold accrueInterest
    rw [if_pos hc]
  · rename_i hc
    unfold accrueInterest
    rw [if_neg hc]

theorem accrue_transition_witness :
    pool2.lastAccrual ≤ 2000 ∧ (accrueInterest 2000 pool2).lastAccrual = 2000 :=
  ⟨by decide, (accrue_transition pool2 2000 (by decide)).1⟩

/-- C9 as written is false: `setRiskParameters` succeeds without calling
interest accrual, leaving `lastAccrual` (1000) different from the call's
clock (2000). -/
theorem accrue_first_counterexample :
    setRiskParameters env2000 (5 * 10 ^ 17) (8 * 10 ^ 17) (12 * 10 ^ 17) pool1
      = .ok setRiskDemo ∧
    setRiskDemo.1.lastAccrual = 1000 ∧ env2000.now = 2000 ∧
    setRiskDemo.1.lastAccrual ≠ env2000.now :=
  ⟨rfl, rfl, rfl, by decide⟩

/-- C9 amended: `depositCollateral`, `withdrawCollateral`, `borrow`,
`repay`, `liquidate` and `setInterestRate` accrue first, so on success
`lastAccrual` equals the call's clock and `borrowIndex` is the freshly
accrued index; `provideLiquidity`, `withdrawLiquidity`, `setRiskParameters`
and `setOracles` never call accrual and leave both untouched. -/
theorem accrual_control_flow (env : Env) (p p' : Pool) (r : Nat) :
    (∀ c a, depositCollateral env c a p = .ok (p', r) →
      p'.lastAccrual = env.now ∧ p'.borrowIndex = (accrueInterest env.now p).borrowIndex) ∧
    (∀ c a, withdrawCollateral env c a p = .ok (p', r) →
      p'.lastAccrual = env.now ∧ p'.borrowIndex = (accrueInterest env.now p).borrowIndex) ∧
    (∀ c a, borrow env c a p = .ok (p', r) →
      p'.lastAccrual = env.now ∧ p'.borrowIndex = (accrueInterest env.now p).borrowIndex) ∧
    (∀ c a, repay env c a p = .ok (p', r) →
      p'.lastAccrual = env.now ∧ p'.borrowIndex = (accrueInterest env.now p).borrowIndex) ∧
    (∀ lq b a, liquidate env lq b a p = .ok (p', r) →
      p'.lastAccrual = env.now ∧ p'.borrowIndex = (accrueInterest env.now p).borrowIndex) ∧
    (∀ rate, setInterestRate env rate p = .ok (p', r) →
      p'.lastAccrual = env.now ∧ p'.borrowIndex = (accrueInterest env.now p).borrowIndex) ∧
    (∀ c a, provideLiquidity env c a p = .ok (p', r) →
      p'.lastAccrual = p.lastAccrual ∧ p'.borrowIndex = p.borrowIndex) ∧
    (∀ c a, withdrawLiquidity env c a p = .ok (p', r) →
      p'.lastAccrual = p.lastAccrual ∧ p'.borrowIndex = p.borrowIndex) ∧
    (∀ cf lt lb, setRiskParameters env cf lt lb p = .ok (p', r) →
      p'.lastAccrual = p.lastAccrual ∧ p'.borrowIndex = p.borrowIndex) ∧
    (∀ co dOr, setOracles env co dOr p = .ok (p', r) →
      p'.lastAccrual = p.lastAccrual ∧ p'.borrowIndex = p.borrowIndex) := by
  refine ⟨?_, ?_, ?_, ?_, ?_, ?_, ?_, ?_, ?_, ?_⟩
  · intro c a h
    have hf := depositCollateral_ok_fields env c a p p' r h
    exact ⟨hf.2, hf.1⟩
  · intro c a h
    have hf := withdrawCollateral_ok_fields env c a p p' r h
    exact ⟨hf.2, hf.1⟩
  · intro c a h
    have hf := borrow_ok_fields env c a p p' r h
    exact ⟨hf.2, hf.1⟩
  · intro c a h
    have hf := repay_ok_fields env c a p p' r h
    exact ⟨hf.2, hf.1⟩
  · intro lq b a h
    have hf := liquidate_ok_fields env lq b a p p' r h
    exact ⟨hf.2, hf.1⟩
  · intro rate h
    have hf := setInterestRate_ok_fields env rate p p' r h
    exact ⟨hf.2, hf.1⟩
  · intro c a h
    have hf := provideLiquidity_ok_fields env c a p p' r h
    exact ⟨hf.2, hf.1⟩
  · intro c a h
    have hf := withdrawLiquidity_ok_fields env c a p p' r h
    exact ⟨hf.2, hf.1⟩
  · intro cf lt lb h
    have hf := setRiskParameters_ok_fields env cf lt lb p p' r h
    exact ⟨hf.2, hf.1⟩
  · intro co dOr h
    have hf := setOracles_ok_fields env co dOr p p' r h
    exact ⟨hf.2, hf.1⟩

theorem accrual_control_flow_witness :
    depositCollateral env2000 1 5 pool1 = .ok depositDemo ∧
    depositDemo.1.lastAccrual = 2000 :=
  ⟨rfl, ((accrual_control_flow env2000 pool1 depositDemo.1 depositDemo.2).1 1 5 rfl).1⟩

lemma setAccount_self (p : Pool) (addr : Nat) (a : Account) :
    (setAccount p addr a).accounts addr = a := by
  simp [setAccount]

/-- What `_isSolvent == true` means in terms of the USD valuations. -/
lemma isSolvent_spec (env : Env) (p : Pool) (a : Account)
    (hs : isSolvent env p a = .ok true) :
    ∀ cv dv, collateralValueUsd env p a.collateral = .ok cv →
      debtValueUsd env p (borrowBalance p a) = .ok dv →
      dv ≤ cv * p.collateralFactor / WAD := by
  intro cv dv hcv hdv
  unfold isSolvent at hs
  split at hs
  · rename_i hdebt
    rw [hdebt] at hdv
    simp [debtValueUsd, tokenValueUsd] at hdv
    rw [← hdv]
    exact Nat.zero_le _
  · split at hs
    · exact Except.noConfusion hs
    · rename_i cv' hcv'
      split at hs
      · exact Except.noConfusion hs
      · rename_i dv' hdv'
        have hcveq : cv' = cv := by
          rw [hcv'] at hcv
          exact Except.ok.inj hcv
        have hdveq : dv' = dv := by
          rw [hdv'] at hdv
          exact Except.ok.inj hdv
        have hb := Except.ok.inj hs
        rw [hcveq, hdveq] at hb
        exact of_decide_eq_true hb

lemma borrow_ok_solvent (env : Env) (c a : Nat) (p p' : Pool) (r : Nat)
    (h : borrow env c a p = .ok (p', r)) :
    isSolvent env p' (p'.accounts c) = .ok true := by
  simp only [borrow] at h
  split at h
  · exact Except.noConfusion h
  · split at h
    · exact Except.noConfusion h
    · split at h
      · exact Except.noConfusion h
      · exact Except.noConfusion h
      · rename_i hsol
        simp only [Except.ok.injEq, Prod.mk.injEq] at h
        obtain ⟨h1, -⟩ := h
        subst h1
        exact hsol

lemma withdrawCollateral_ok_solvent (env : Env) (c a : Nat) (p p' : Pool) (r : Nat)
    (h : withdrawCollateral env c a p = .ok (p', r)) :
    isSolvent env p' (p'.accounts c) = .ok true := by
  simp only [withdrawCollateral] at h
  split at h
  · exact Except.noConfusion h
  · split at h
    · exact Except.noConfusion h
    · split at h
      · exact Except.noConfusion h
      · exact Except.noConfusion h
      · rename_i hsol
        simp only [Except.ok.injEq, Prod.mk.injEq] at h
        obtain ⟨h1, -⟩ := h
        subst h1
        rw [setAccount_self]
        exact hsol

/-- C4: a successful `borrow` or `withdrawCollateral` leaves the caller
solvent immediately after — in the post-state, the USD collateral value
times the collateral factor (WAD-scaled) is at least the USD value of the
freshly recomputed debt. -/
theorem solvency_gate (env : Env) (c a : Nat) (p p' : Pool) (r : Nat)
    (h : borrow env c a p = .ok (p', r) ∨ withdrawCollateral env c a p = .ok (p', r)) :
    ∀ cv dv, collateralValueUsd env p' ((p'.accounts c).collateral) = .ok cv →
      debtValueUsd env p' (borrowBalance p' (p'.accounts c)) = .ok dv →
      cv * p'.collateralFactor / WAD ≥ dv := by
  intro cv dv hcv hdv
  rcases h with h | h
  · exact isSolvent_spec env p' (p'.accounts c) (borrow_ok_solvent env c a p p' r h)
      cv dv hcv hdv
  · exact isSolvent_spec env p' (p'.accounts c) (withdrawCollateral_ok_solvent env c a p p' r h)
      cv dv hcv hdv

theorem solvency_gate_witness :
    (borrow env0 1 10 pool1 = .ok borrowDemo) ∧
    collateralValueUsd env0 borrowDemo.1 ((borrowDemo.1.accounts 1).collateral)
      = .ok (100 * 10 ^ 18) ∧
    debtValueUsd env0 borrowDemo.1 (borrowBalance borrowDemo.1 (borrowDemo.1.accounts 1))
      = .ok (10 * 10 ^ 18) ∧
    100 * 10 ^ 18 * borrowDemo.1.collateralFactor / WAD ≥ 10 * 10 ^ 18 :=
  ⟨rfl, rfl, rfl,
    solvency_gate env0 1 10 pool1 borrowDemo.1 borrowDemo.2 (Or.inl rfl)
      (100 * 10 ^ 18) (10 * 10 ^ 18) rfl rfl⟩

lemma ite_gt_eq_min (a b : Nat) : (if a > b then b else a) = min a b := by
  split <;> omega

lemma ite_gt_le (a b : Nat) : (if a > b then b else a) ≤ b := by
  split <;> omega

lemma decreaseBorrow_snd (p : Pool) (c amount : Nat) :
    (decreaseBorrow p c amount).2 = min amount (borrowBalance p (p.accounts c)) := by
  simp only [decreaseBorrow]
  by_cases h1 : amount > borrowBalance p (p.accounts c)
  · rw [if_pos h1]
    by_cases h2 : borrowBalance p (p.accounts c) = 0
    · rw [if_pos h2]
      dsimp only
      omega
    · rw [if_neg h2]
      dsimp only
      omega
  · rw [if_neg h1]
    by_cases h2 : amount = 0
    · rw [if_pos h2]
      dsimp only
      omega
    · rw [if_neg h2]
      dsimp only
      omega

lemma decreaseBorrow_totalBorrows (p : Pool) (c amount : Nat) :
    (decreaseBorrow p c amount).1.totalBorrows
      = p.totalBorrows - (decreaseBorrow p c amount).2 := by
  simp only [decreaseBorrow]
  by_cases h1 : amount > borrowBalance p (p.accounts c)
  · rw [if_pos h1]
    by_cases h2 : borrowBalance p (p.accounts c) = 0
    · rw [if_pos h2]
      dsimp only [setAccount]
      omega
    · rw [if_neg h2]
      dsimp only [setAccount]
  · rw [if_neg h1]
    by_cases h2 : amount = 0
    · rw [if_pos h2]
      dsimp only [setAccount]
      omega
    · rw [if_neg h2]
      dsimp only [setAccount]

lemma decreaseBorrow_full (p : Pool) (c amount : Nat)
    (hge : borrowBalance p (p.accounts c) ≤ amount)
    (hpos : borrowBalance p (p.accounts c) ≠ 0) :
    ((decreaseBorrow p c amount).1.accounts c).borrowBase = 0 := by
  simp only [decreaseBorrow]
  by_cases h1 : amount > borrowBalance p (p.accounts c)
  · rw [if_pos h1, if_neg hpos, setAccount_self]
    simp [Nat.sub_self]
  · rw [if_neg h1]
    have h2 : amount ≠ 0 := by omega
    rw [if_neg h2, setAccount_self]
    have hz : borrowBalance p (p.accounts c) - amount = 0 := by omega
    simp [hz]

lemma decreaseBorrow_accounts_collateral (p : Pool) (c amount x : Nat) :
    ((decreaseBorrow p c amount).1.accounts x).collateral = (p.accounts x).collateral := by
  simp only [decreaseBorrow]
  by_cases h1 : amount > borrowBalance p (p.accounts c)
  · rw [if_pos h1]
    by_cases h2 : borrowBalance p (p.accounts c) = 0
    · rw [if_pos h2]
    · rw [if_neg h2]
      dsimp only [setAccount]
      by_cases hx : x = c
      · subst hx
        rw [if_pos rfl]
      · rw [if_neg hx]
  · rw [if_neg h1]
    by_cases h2 : amount = 0
    · rw [if_pos h2]
    · rw [if_neg h2]
      dsimp only [setAccount]
      by_cases hx : x = c
      · subst hx
        rw [if_pos rfl]
      · rw [if_neg hx]

lemma decreaseBorrow_fst_debtBalance (p : Pool) (c a : Nat) :
    (decreaseBorrow p c a).1.debtBalance = p.debtBalance := by
  simp only [decreaseBorrow]
  by_cases h1 : a > borrowBalance p (p.accounts c)
  · rw [if_pos h1]
    by_cases h2 : borrowBalance p (p.accounts c) = 0
    · rw [if_pos h2]
    · rw [if_neg h2]
      rfl
  · rw [if_neg h1]
    by_cases h2 : a = 0
    · rw [if_pos h2]
    · rw [if_neg h2]
      rfl

/-- C5 as written is false: a borrower with zero outstanding debt (so the
third condition fails) is rejected with `AccountHealthy`, not `NoDebt` —
the health check precedes the debt check and a debt-free account has a
maximal health factor, so the `NoDebt` branch is unreachable. -/
theorem liquidation_gate_counterexample :
    liquidate env0 1 3 5 pool1 = .error .AccountHealthy ∧
    (pool1.accounts 3).borrowBase = 0 ∧ (1 : Nat) ≠ 3 ∧ (0 : Nat) < 5 ∧
    Err.AccountHealthy ≠ Err.NoDebt :=
  ⟨rfl, rfl, by decide, by decide, by decide⟩

/-- C5 amended: `liquidate` succeeds only if liquidator ≠ borrower,
repayAmount > 0, and the borrower is unhealthy after accrual at the call's
clock (health factor < WAD, which entails outstanding debt > 0).
Self-liquidation fails with `SelfLiquidation`, then a zero amount with
`ZeroAmount`; a borrower healthy after accrual — including any borrower
with zero debt, whose health factor is maximal — fails with
`AccountHealthy`, so the `NoDebt` failure is unreachable. -/
theorem liquidation_gate (env : Env) (lq b amt : Nat) (p : Pool) :
    (∀ p' r, liquidate env lq b amt p = .ok (p', r) →
      b ≠ lq ∧ 0 < amt ∧
      isHealthy env (accrueInterest env.now p) ((accrueInterest env.now p).accounts b)
        = .ok false ∧
      0 < borrowBalance (accrueInterest env.now p) ((accrueInterest env.now p).accounts b)) ∧
    (b = lq → liquidate env lq b amt p = .error .SelfLiquidation) ∧
    (b ≠ lq → amt = 0 → liquidate env lq b amt p = .error .ZeroAmount) ∧
    (b ≠ lq → 0 < amt →
      isHealthy env (accrueInterest env.now p) ((accrueInterest env.now p).accounts b)
        = .ok true →
      liquidate env lq b amt p = .error .AccountHealthy) ∧
    (((accrueInterest env.now p).accounts b).borrowBase = 0 →
      isHealthy env (accrueInterest env.now p) ((accrueInterest env.now p).accounts b)
        = .ok true) := by
  refine ⟨?_, ?_, ?_, ?_, ?_⟩
  · intro p' r h
    simp only [liquidate] at h
    split at h
    · exact Except.noConfusion h
    · rename_i hbl
      split at h
      · exact Except.noConfusion h
      · rename_i ha0
        split at h
        · exact Except.noConfusion h
        · exact Except.noConfusion h
        · rename_i hH
          split at h
          · exact Except.noConfusion h
          · rename_i hd0
            exact ⟨hbl, Nat.pos_of_ne_zero ha0, hH, Nat.pos_of_ne_zero hd0⟩
  · intro hbl
    simp only [liquidate]
    rw [if_pos hbl]
  · intro hbl ha0
    simp only [liquidate]
    rw [if_neg hbl, if_pos ha0]
  · intro hbl hamt hH
    simp only [liquidate]
    rw [if_neg hbl, if_neg (Nat.pos_iff_ne_zero.mp hamt), hH]
  · intro hb
    have hmax : decide (WAD ≤ UINT256_MAX) = true := by decide
    simp [isHealthy, healthFactor, hb, hmax]

theorem liquidation_gate_witness :
    liquidate env0 1 1 5 pool1 = .error .SelfLiquidation :=
  (liquidation_gate env0 1 1 5 pool1).2.1 rfl

/-- C6: with a positive amount, `repay` fails with `NothingToRepay` (state
unchanged by the revert) exactly when the freshly accrued debt is zero; on
success it returns `min(amount, debt)`, debits exactly that from the
accrued `totalBorrows`, and an over-repayment zeroes the debt. -/
theorem repay_clamping (env : Env) (c amount : Nat) (p : Pool) (hamt : 0 < amount) :
    (repay env c amount p = .error .NothingToRepay ↔
      borrowBalance (accrueInterest env.now p) ((accrueInterest env.now p).accounts c) = 0) ∧
    (repay env c amount p = .error .NothingToRepay →
      runTx env (.repayOp c amount) p = (p, some .NothingToRepay)) ∧
    (∀ p' r, repay env c amount p = .ok (p', r) →
      r = min amount
        (borrowBalance (accrueInterest env.now p) ((accrueInterest env.now p).accounts c)) ∧
      p'.totalBorrows = (accrueInterest env.now p).totalBorrows - r ∧
      (borrowBalance (accrueInterest env.now p) ((accrueInterest env.now p).accounts c)
          ≤ amount →
        (p'.accounts c).borrowBase = 0 ∧ borrowBalance p' (p'.accounts c) = 0)) := by
  have hsnd := decreaseBorrow_snd (accrueInterest env.now p) c amount
  refine ⟨⟨?_, ?_⟩, ?_, ?_⟩
  · intro h
    simp only [repay] at h
    split at h
    · rename_i h0
      omega
    · split at h
      · rename_i h0
        omega
      · exact Except.noConfusion h
  · intro hcur
    simp only [repay]
    rw [if_neg (Nat.pos_iff_ne_zero.mp hamt), if_pos (by omega)]
  · intro h
    simp only [runTx, applyOp, h]
  · intro p' r h
    simp only [repay] at h
    split at h
    · exact Except.noConfusion h
    · rename_i h0
      split at h
      · exact Except.noConfusion h
      · rename_i hne
        simp only [Except.ok.injEq, Prod.mk.injEq] at h
        obtain ⟨h1, h2⟩ := h
        subst h1
        subst h2
        refine ⟨hsnd, ?_, ?_⟩
        · exact decreaseBorrow_totalBorrows (accrueInterest env.now p) c amount
        · intro hge
          have hpos : borrowBalance (accrueInterest env.now p)
              ((accrueInterest env.now p).accounts c) ≠ 0 := by omega
          have hbase := decreaseBorrow_full (accrueInterest env.now p) c amount hge hpos
          exact ⟨hbase, by simp [borrowBalance, borrowBalanceWithIndex, hbase]⟩

theorem repay_clamping_witness :
    (0 : Nat) < 100 ∧ repay env0 1 100 pool2 = .ok repayDemo ∧
    repayDemo.2 = min 100 (borrowBalance (accrueInterest env0.now pool2)
      ((accrueInterest env0.now pool2).accounts 1)) :=
  ⟨by decide, rfl,
    ((repay_clamping env0 1 100 pool2 (by decide)).2.2 repayDemo.1 repayDemo.2 rfl).1⟩

/-- C8 is the intended behavior and the code breaks it: with
`borrowIndex = 2·WAD`, `_increaseBorrow` of amount 1 on a debt-free account
floors `borrowBase` to 0, so the recomputed debt is 0 — strictly below the
previous debt plus the borrowed amount — while `totalBorrows` still grows
by the full amount (rounding in the account's favor, not the pool's). -/
theorem increaseBorrow_rounding_bug :
    WAD ≤ poolHi.borrowIndex ∧
    borrowBalance poolHi (poolHi.accounts 1) = 0 ∧
    borrowBalance (increaseBorrow poolHi 1 1) ((increaseBorrow poolHi 1 1).accounts 1) = 0 ∧
    borrowBalance (increaseBorrow poolHi 1 1) ((increaseBorrow poolHi 1 1).accounts 1)
      < borrowBalance poolHi (poolHi.accounts 1) + 1 ∧
    (increaseBorrow poolHi 1 1).totalBorrows = poolHi.totalBorrows + 1 :=
  ⟨by decide, rfl, rfl, by decide, rfl⟩

/-- C7: a successful liquidation seizes exactly
`min(actualRepay * liquidationBonus / WAD, collateral)` from the borrower's
account and from `totalCollateral`, and pulls `actualRepay =
min(repayAmount, debt)` of the debt asset into the pool. -/
theorem liquidation_seizure (env : Env) (lq b amt : Nat) (p p' : Pool) (r : Nat)
    (h : liquidate env lq b amt p = .ok (p', r)) :
    (p'.accounts b).collateral
        = ((accrueInterest env.now p).accounts b).collateral - claimedSeize env b amt p ∧
    p'.totalCollateral
        = (accrueInterest env.now p).totalCollateral - claimedSeize env b amt p ∧
    p'.debtBalance = (accrueInterest env.now p).debtBalance + claimedRepay env b amt p := by
  simp only [liquidate] at h
  split at h
  · exact Except.noConfusion h
  · split at h
    · exact Except.noConfusion h
    · split at h
      · exact Except.noConfusion h
      · exact Except.noConfusion h
      · split at h
        · exact Except.noConfusion h
        · simp only [Except.ok.injEq, Prod.mk.injEq] at h
          obtain ⟨h1, -⟩ := h
          subst h1
          refine ⟨?_, ?_, ?_⟩
          · rw [setAccount_self]
            dsimp only
            simp only [decreaseBorrow_accounts_collateral, ite_gt_eq_min,
              claimedSeize, claimedRepay]
          · dsimp only [setAccount]
            simp only [decreaseBorrow_fst_totalCollateral, decreaseBorrow_accounts_collateral,
              ite_gt_eq_min, claimedSeize, claimedRepay]
          · dsimp only [setAccount]
            simp only [decreaseBorrow_fst_debtBalance, ite_gt_eq_min, claimedRepay]

theorem liquidation_seizure_witness :
    liquidate env0 1 2 30 poolLiq = .ok liqDemo ∧
    (liqDemo.1.accounts 2).collateral
      = ((accrueInterest env0.now poolLiq).accounts 2).collateral
          - claimedSeize env0 2 30 poolLiq :=
  ⟨rfl, (liquidation_seizure env0 1 2 30 poolLiq liqDemo.1 liqDemo.2 rfl).1⟩

/-! Preservation of collateral conservation by every public call. -/

lemma conserved_accrue (now : Nat) (p : Pool) (hp : Conserved p) :
    Conserved (accrueInterest now p) :=
  conserved_congr p _ (accrueInterest_accounts now p) (accrueInterest_totalCollateral now p) hp

lemma decreaseBorrow_conserved (p : Pool) (c a : Nat) (hp : Conserved p) :
    Conserved (decreaseBorrow p c a).1 := by
  simp only [decreaseBorrow]
  by_cases h1 : a > borrowBalance p (p.accounts c)
  · rw [if_pos h1]
    by_cases h2 : borrowBalance p (p.accounts c) = 0
    · rw [if_pos h2]
      exact hp
    · rw [if_neg h2]
      exact conserved_update_add p _ c _ 0 rfl rfl rfl hp
  · rw [if_neg h1]
    by_cases h2 : a = 0
    · rw [if_pos h2]
      exact hp
    · rw [if_neg h2]
      exact conserved_update_add p _ c _ 0 rfl rfl rfl hp

/-- Seizing `seize ≤ collateral` from one account and from
`totalCollateral` preserves conservation. -/
lemma conserved_seize (q : Pool) (b seize : Nat) (hs : seize ≤ (q.accounts b).collateral)
    (hq : Conserved q) :
    Conserved (setAccount { q with totalCollateral := q.totalCollateral - seize } b
      { q.accounts b with collateral := (q.accounts b).collateral - seize }) :=
  conserved_update_sub q _ b _ seize rfl hs rfl rfl hq

lemma depositCollateral_ok_conserved (env : Env) (c a : Nat) (p p' : Pool) (r : Nat)
    (h : depositCollateral env c a p = .ok (p', r)) (hp : Conserved p) : Conserved p' := by
  simp only [depositCollateral] at h
  split at h
  · exact Except.noConfusion h
  · simp only [Except.ok.injEq, Prod.mk.injEq] at h
    obtain ⟨h1, -⟩ := h
    subst h1
    exact conserved_update_add (accrueInterest env.now p) _ c _ a rfl rfl rfl
      (conserved_accrue env.now p hp)

lemma withdrawCollateral_ok_conserved (env : Env) (c a : Nat) (p p' : Pool) (r : Nat)
    (h : withdrawCollateral env c a p = .ok (p', r)) (hp : Conserved p) : Conserved p' := by
  simp only [withdrawCollateral] at h
  split at h
  · exact Except.noConfusion h
  · split at h
    · exact Except.noConfusion h
    · rename_i hcoll
      split at h
      · exact Except.noConfusion h
      · exact Except.noConfusion h
      · simp only [Except.ok.injEq, Prod.mk.injEq] at h
        obtain ⟨h1, -⟩ := h
        subst h1
        exact conserved_update_sub (accrueInterest env.now p) _ c _ a rfl
          (Nat.not_lt.mp hcoll) rfl rfl (conserved_accrue env.now p hp)

lemma borrow_ok_conserved (env : Env) (c a : Nat) (p p' : Pool) (r : Nat)
    (h : borrow env c a p = .ok (p', r)) (hp : Conserved p) : Conserved p' := by
  simp only [borrow] at h
  split at h
  · exact Except.noConfusion h
  · split at h
    · exact Except.noConfusion h
    · split at h
      · exact Except.noConfusion h
      · exact Except.noConfusion h
      · simp only [Except.ok.injEq, Prod.mk.injEq] at h
        obtain ⟨h1, -⟩ := h
        subst h1
        refine conserved_congr _ _ rfl rfl ?_
        exact conserved_update_add (accrueInterest env.now p) _ c _ 0 rfl rfl rfl
          (conserved_accrue env.now p hp)

lemma repay_ok_conserved (env : Env) (c a : Nat) (p p' : Pool) (r : Nat)
    (h : repay env c a p = .ok (p', r)) (hp : Conserved p) : Conserved p' := by
  simp only [repay] at h
  split at h
  · exact Except.noConfusion h
  · split at h
    · exact Except.noConfusion h
    · simp only [Except.ok.injEq, Prod.mk.injEq] at h
      obtain ⟨h1, -⟩ := h
      subst h1
      refine conserved_congr _ _ rfl rfl ?_
      exact decreaseBorrow_conserved (accrueInterest env.now p) c a
        (conserved_accrue env.now p hp)

lemma liquidate_ok_conserved (env : Env) (lq b a : Nat) (p p' : Pool) (r : Nat)
    (h : liquidate env lq b a p = .ok (p', r)) (hp : Conserved p) : Conserved p' := by
  simp only [liquidate] at h
  split at h
  · exact Except.noConfusion h
  · split at h
    · exact Except.noConfusion h
    · split at h
      · exact Except.noConfusion h
      · exact Except.noConfusion h
      · split at h
        · exact Except.noConfusion h
        · simp only [Except.ok.injEq, Prod.mk.injEq] at h
          obtain ⟨h1, -⟩ := h
          subst h1
          apply conserved_seize
          · exact ite_gt_le _ _
          · apply decreaseBorrow_conserved
            exact conserved_congr (accrueInterest env.now p) _ rfl rfl
              (conserved_accrue env.now p hp)

lemma provideLiquidity_ok_conserved (env : Env) (c a : Nat) (p p' : Pool) (r : Nat)
    (h : provideLiquidity env c a p = .ok (p', r)) (hp : Conserved p) : Conserved p' := by
  simp only [provideLiquidity] at h
  split at h
  · exact Except.noConfusion h
  · simp only [Except.ok.injEq, Prod.mk.injEq] at h
    obtain ⟨h1, -⟩ := h
    subst h1
    exact conserved_congr p _ rfl rfl hp

lemma withdrawLiquidity_ok_conserved (env : Env) (c a : Nat) (p p' : Pool) (r : Nat)
    (h : withdrawLiquidity env c a p = .ok (p', r)) (hp : Conserved p) : Conserved p' := by
  simp only [withdrawLiquidity] at h
  split at h
  · exact Except.noConfusion h
  · split at h
    · exact Except.noConfusion h
    · simp only [Except.ok.injEq, Prod.mk.injEq] at h
      obtain ⟨h1, -⟩ := h
      subst h1
      exact conserved_congr p _ rfl rfl hp

lemma setRiskParameters_ok_conserved (env : Env) (cf lt lb : Nat) (p p' : Pool) (r : Nat)
    (h : setRiskParameters env cf lt lb p = .ok (p', r)) (hp : Conserved p) : Conserved p' := by
  simp only [setRiskParameters] at h
  split at h
  · simp only [Except.ok.injEq, Prod.mk.injEq] at h
    obtain ⟨h1, -⟩ := h
    subst h1
    exact conserved_congr p _ rfl rfl hp
  · exact Except.noConfusion h

lemma setInterestRate_ok_conserved (env : Env) (rate : Nat) (p p' : Pool) (r : Nat)
    (h : setInterestRate env rate p = .ok (p', r)) (hp : Conserved p) : Conserved p' := by
  simp only [setInterestRate, Except.ok.injEq, Prod.mk.injEq] at h
  obtain ⟨h1, -⟩ := h
  subst h1
  exact conserved_congr (accrueInterest env.now p) _ rfl rfl (conserved_accrue env.now p hp)

lemma setOracles_ok_conserved (env : Env) (co dOr : Nat) (p p' : Pool) (r : Nat)
    (h : setOracles env co dOr p = .ok (p', r)) (hp : Conserved p) : Conserved p' := by
  simp only [setOracles] at h
  split at h
  · exact Except.noConfusion h
  · simp only [Except.ok.injEq, Prod.mk.injEq] at h
    obtain ⟨h1, -⟩ := h
    subst h1
    exact conserved_congr p _ rfl rfl hp

lemma runTx_conserved (env : Env) (o : Op) (p : Pool) (hp : Conserved p) :
    Conserved (runTx env o p).1 := by
  rcases hres : applyOp env o p with e | ⟨p', r⟩
  · simp only [runTx, hres]
    exact hp
  · simp only [runTx, hres]
    cases o with
    | deposit c a => exact depositCollateral_ok_conserved env c a p p' r hres hp
    | withdraw c a => exact withdrawCollateral_ok_conserved env c a p p' r hres hp
    | borrowOp c a => exact borrow_ok_conserved env c a p p' r hres hp
    | repayOp c a => exact repay_ok_conserved env c a p p' r hres hp
    | liquidateOp lq b a => exact liquidate_ok_conserved env lq b a p p' r hres hp
    | provideLiq c a => exact provideLiquidity_ok_conserved env c a p p' r hres hp
    | withdrawLiq c a => exact withdrawLiquidity_ok_conserved env c a p p' r hres hp
    | setRisk cf lt lb => exact setRiskParameters_ok_conserved env cf lt lb p p' r hres hp
    | setRate rr => exact setInterestRate_ok_conserved env rr p p' r hres hp
    | setOrc co dOr => exact setOracles_ok_conserved env co dOr p p' r hres hp
    | accrueOp =>
      simp only [applyOp, accrueInterestExt, Except.ok.injEq, Prod.mk.injEq] at hres
      obtain ⟨h1, -⟩ := hres
      rw [← h1]
      exact conserved_accrue env.now p hp
    | readOnly =>
      simp only [applyOp, Except.ok.injEq, Prod.mk.injEq] at hres
      obtain ⟨h1, -⟩ := hres
      rw [← h1]
      exact hp

/-- C10: in every state reachable from a freshly constructed pool by any
call sequence, `totalCollateral` equals the sum of the per-account
collateral balances. -/
theorem collateral_conservation (co dOr cd dd cf lt lb rate t0 : Nat)
    (l : List (Env × Op)) :
    Conserved (runSeq (initPool co dOr cd dd cf lt lb rate t0) l) := by
  have main : ∀ (m : List (Env × Op)) (q : Pool), Conserved q → Conserved (runSeq q m) := by
    intro m
    induction m with
    | nil => exact fun q hq => hq
    | cons eo rest ih => exact fun q hq => ih (runTx eo.1 eo.2 q).1 (runTx_conserved eo.1 eo.2 q hq)
  exact main l _ ⟨[], List.nodup_nil, fun a _ => rfl, rfl⟩

end LendingPool
